import Mathlib

/-
Verification of the Tecama CodeBattle WebSocket backend (server.js).
The server state (rooms map, history map), the message handlers and the
broadcast logic are shallowly embedded as executable Lean functions.
JavaScript Map values are modelled as association lists in insertion
order, which matches Map iteration semantics: set on an existing key
updates the entry in place, set on an absent key appends at the end,
delete removes the entry. A live WebSocket handle is modelled as an
opaque numeric connection identifier; a member restored from a Redis
snapshot carries no handle (none). Transport behaviour visible to the
handlers (readyState, send failures, the set of connected clients) is
an explicit environment. A JavaScript runtime exception is modelled by
the Except error branch.
-/

namespace CodeBattle

abbrev ConnId := Nat

/-- Profile blob sent by a client; the code reads the email and fullName
fields. An absent or empty email is collapsed to the empty string, since
the handler treats both as falsy. -/
structure UserData where
  email : String
  fullName : String
  deriving DecidableEq

/-- One entry of a room users map: the stored connection handle, absent
for members reconstructed from a persisted snapshot, plus the profile. -/
structure Member where
  ws : Option ConnId
  userData : UserData
  deriving DecidableEq

structure ChallengeExample where
  input : String
  output : String
  deriving DecidableEq

structure ChallengeTest where
  input : String
  expectedOutput : String
  deriving DecidableEq

/-- Challenge blob, server.js lines 111-124. -/
structure Challenge where
  title : String
  description : String
  examples : List ChallengeExample
  testCases : List ChallengeTest
  deriving DecidableEq

/-- Room record, server.js lines 43-54. winner and loser are present only
after an active game ended. -/
structure Room where
  id : String
  users : List (String × Member)
  challenge : Challenge
  started : Bool
  winner : Option String
  loser : Option String
  deriving DecidableEq

/-- The two module-level tables: the live rooms map and the history map. -/
structure ServerState where
  rooms : List (String × Room)
  history : List (String × Room)
  deriving DecidableEq

/-- Transport facts the handlers observe: the set of clients of the
WebSocket server, whether a connection has readyState OPEN, and whether a
send on it throws at the transport level. -/
structure Env where
  clients : List ConnId
  isOpen : ConnId → Bool
  sendFails : ConnId → Bool

/-- Parsed message payload: the fields the handlers read, each absent or
present. -/
structure Payload where
  roomId : Option String
  userData : Option UserData
  message : Option String
  deriving DecidableEq

/-- An inbound frame: either a body JSON.parse throws on, or a parsed
envelope with an optional type tag and a payload (an absent payload is
replaced by the empty object, modelled by all-none fields). -/
inductive InRaw where
  | unparseable
  | parsed (msgType : Option String) (payload : Payload)
  deriving DecidableEq

/-- A JavaScript runtime exception escaping a handler. -/
inductive JsErr where
  | typeError (msg : String)
  deriving DecidableEq

/-- One element of a rooms_list summary, server.js lines 160-164. -/
structure RoomSummary where
  roomId : String
  userCount : Nat
  challenge : Challenge
  deriving DecidableEq

/-- Every message shape the server sends, with the destination connection
first. -/
inductive OutMsg where
  | welcome (dest : ConnId) (socketId : String)
  | errorMsg (dest : ConnId) (message : String)
  | roomCreated (dest : ConnId) (roomId : String) (challenge : Challenge)
  | roomsList (dest : ConnId) (rooms : List RoomSummary)
  | joinError (dest : ConnId) (message : String)
  | joinedRoom (dest : ConnId) (roomId : String) (users : List UserData)
      (challenge : Challenge) (started : Bool)
  | userJoined (dest : ConnId) (userData : UserData)
  | gameStarted (dest : ConnId) (time : Nat)
  | userLeft (dest : ConnId) (userData : UserData) (users : List UserData)
  | leftRoom (dest : ConnId) (roomId : String)
  | gameEnded (dest : ConnId) (winner : UserData) (loser : UserData) (reason : String)
  | chatMsg (dest : ConnId) (sender : String) (message : String)
  | unknownType (dest : ConnId) (msgType : String)
  deriving DecidableEq

-- =====================
-- Association list operations with JavaScript Map semantics
-- =====================

def alGet {α : Type} (m : List (String × α)) (k : String) : Option α :=
  match m with
  | [] => none
  | p :: rest => if p.1 = k then some p.2 else alGet rest k

def alSet {α : Type} (m : List (String × α)) (k : String) (v : α) : List (String × α) :=
  match m with
  | [] => [(k, v)]
  | p :: rest => if p.1 = k then (p.1, v) :: rest else p :: alSet rest k v

def alDelete {α : Type} (m : List (String × α)) (k : String) : List (String × α) :=
  match m with
  | [] => []
  | p :: rest => if p.1 = k then rest else p :: alDelete rest k

def concatMap {α β : Type} (f : α → List β) : List α → List β
  | [] => []
  | a :: rest => f a ++ concatMap f rest

-- =====================
-- Server operations, translated from src/server.js
-- =====================

/-- server.js lines 111-124. -/
def getRandomChallenge : Challenge :=
  { title := ("مجموع اعداد")
  , description := ("تابعی بنویسید که مجموع اعداد 1 تا n را محاسبه کند.")
  , examples :=
      [ { input := ("5"), output := ("15") }
      , { input := ("10"), output := ("55") } ]
  , testCases :=
      [ { input := ("10"), expectedOutput := ("55") }
      , { input := ("100"), expectedOutput := ("5050") } ] }

/-- server.js lines 21-29: send only when readyState is OPEN, swallow any
exception. Reading readyState of an undefined handle throws, and a
transport-level send error throws; both are caught, so the result is the
empty delivery list in those cases and never a propagated exception. -/
def safeSend (env : Env) (ws : Option ConnId) (mk : ConnId → OutMsg) : List OutMsg :=
  match ws with
  | none => []
  | some c => if env.isOpen c && !env.sendFails c then [mk c] else []

/-- JavaScript comparison email === except with except possibly null. -/
def exceptMatch (except : Option String) (email : String) : Bool :=
  match except with
  | none => false
  | some e => email == e

/-- server.js lines 100-107. -/
def broadcast (env : Env) (rooms : List (String × Room)) (roomId : String)
    (mk : ConnId → OutMsg) (except : Option String) : List OutMsg :=
  match alGet rooms roomId with
  | none => []
  | some room =>
      concatMap (fun p => if exceptMatch except p.1 then [] else safeSend env p.2.ws mk)
        room.users

/-- Summary list built at server.js lines 160-164, 173-177, 227-231, 298-302. -/
def roomSummaries (rooms : List (String × Room)) : List RoomSummary :=
  rooms.map (fun p =>
    { roomId := p.2.id, userCount := p.2.users.length, challenge := p.2.challenge })

/-- Process-wide rooms_list fan-out guarded by a readyState check,
server.js lines 232-236 and 303-307. -/
def roomsListToClients (env : Env) (rooms : List (String × Room)) : List OutMsg :=
  concatMap
    (fun c => if env.isOpen c then
        safeSend env (some c) (fun d => OutMsg.roomsList d (roomSummaries rooms))
      else [])
    env.clients

/-- Process-wide rooms_list fan-out without the outer readyState check,
server.js lines 165-167. -/
def roomsListToClientsUnchecked (env : Env) (rooms : List (String × Room)) : List OutMsg :=
  concatMap
    (fun c => safeSend env (some c) (fun d => OutMsg.roomsList d (roomSummaries rooms)))
    env.clients

/-- joined_room reply built at server.js lines 198-203 and 212-217. -/
def mkJoinedRoom (rid : String) (room : Room) (c : ConnId) : OutMsg :=
  OutMsg.joinedRoom c rid (room.users.map (fun p => p.2.userData)) room.challenge room.started

/-- Fresh room record built at server.js lines 151-156. -/
def freshRoom (freshId : String) : Room :=
  { id := freshId, users := [], challenge := getRandomChallenge, started := false
  , winner := none, loser := none }

/-- The room after users.set(userEmail, \x7b ws, userData \x7d), server.js
lines 197 and 211. -/
def roomWithUser (room : Room) (ws : ConnId) (ud : UserData) : Room :=
  { room with users := alSet room.users ud.email { ws := some ws, userData := ud } }

/-- The room after users.delete(email), server.js lines 258 and 349. -/
def shrunkRoom (room : Room) (leftEmail : String) : Room :=
  { room with users := alDelete room.users leftEmail }

/-- The ended room: users already shrunk, winner and loser recorded,
server.js lines 266-269 and 356-359. -/
def endedRoom (room : Room) (leftEmail winnerEmail : String) : Room :=
  { room with users := alDelete room.users leftEmail, winner := some winnerEmail, loser := some leftEmail }

/-- create_room handler, server.js lines 148-170. -/
def handleCreate (env : Env) (ws : ConnId) (freshId : String) (st : ServerState) :
    ServerState × List OutMsg :=
  ({ st with rooms := alSet st.rooms freshId (freshRoom freshId) },
    safeSend env (some ws) (fun c => OutMsg.roomCreated c freshId getRandomChallenge)
      ++ roomsListToClientsUnchecked env (alSet st.rooms freshId (freshRoom freshId)))

/-- Common tail of the join_room handler, server.js lines 226-242: the
process-wide rooms_list update followed by the game start when the room
now holds exactly 2 users. -/
def joinTail (env : Env) (rid : String) (room1 : Room) (st1 : ServerState)
    (outs : List OutMsg) : ServerState × List OutMsg :=
  if room1.users.length = 2 then
    ({ st1 with rooms := alSet st1.rooms rid { room1 with started := true } },
      outs ++ roomsListToClients env st1.rooms
        ++ broadcast env (alSet st1.rooms rid { room1 with started := true }) rid
            (fun c => OutMsg.gameStarted c 300) none)
  else
    (st1, outs ++ roomsListToClients env st1.rooms)

/-- join_room handler, server.js lines 182-244. Reading
payload.userData.email without a userData object throws a TypeError,
modelled by the Except error branch; the throw happens before any state
mutation. -/
def handleJoin (env : Env) (ws : ConnId) (payload : Payload) (st : ServerState) :
    Except JsErr (ServerState × List OutMsg) :=
  match payload.userData with
  | none => Except.error (JsErr.typeError ("cannot read email of undefined"))
  | some ud =>
    if ud.email = "" then
      Except.ok (st, safeSend env (some ws) (fun c => OutMsg.joinError c ("missing_email")))
    else
      match payload.roomId with
      | none =>
          Except.ok (st, safeSend env (some ws) (fun c => OutMsg.joinError c ("room_not_found")))
      | some rid =>
        match alGet st.rooms rid with
        | none =>
            Except.ok (st, safeSend env (some ws) (fun c => OutMsg.joinError c ("room_not_found")))
        | some room =>
          match alGet room.users ud.email with
          | some _ =>
            Except.ok (joinTail env rid (roomWithUser room ws ud)
              { st with rooms := alSet st.rooms rid (roomWithUser room ws ud) }
              (safeSend env (some ws) (mkJoinedRoom rid (roomWithUser room ws ud))))
          | none =>
            if 2 ≤ room.users.length then
              Except.ok (st, safeSend env (some ws) (fun c => OutMsg.joinError c ("room_full")))
            else
              Except.ok (joinTail env rid (roomWithUser room ws ud)
                { st with rooms := alSet st.rooms rid (roomWithUser room ws ud) }
                (safeSend env (some ws) (mkJoinedRoom rid (roomWithUser room ws ud))
                  ++ broadcast env (alSet st.rooms rid (roomWithUser room ws ud)) rid
                      (fun c => OutMsg.userJoined c ud) (some ud.email)))

/-- leave_room handler, server.js lines 246-311. The departing member is
located by comparing the stored handle with the requesting connection. -/
def handleLeave (env : Env) (ws : ConnId) (payload : Payload) (st : ServerState) :
    ServerState × List OutMsg :=
  match payload.roomId with
  | none => (st, [])
  | some rid =>
    if rid = "" then (st, [])
    else
      match alGet st.rooms rid with
      | none => (st, [])
      | some room =>
        match room.users.find? (fun p => p.2.ws == some ws) with
        | none => (st, [])
        | some lp =>
          if room.started && decide (0 < (alDelete room.users lp.1).length) then
            match (alDelete room.users lp.1).head? with
            | none => (st, [])
            | some wp =>
              ({ st with rooms := alDelete (alSet st.rooms rid (endedRoom room lp.1 wp.1)) rid, history := alSet st.history rid (endedRoom room lp.1 wp.1) },
                broadcast env (alSet st.rooms rid (endedRoom room lp.1 wp.1)) rid
                  (fun c => OutMsg.gameEnded c wp.2.userData lp.2.userData ("opponent_left")) none
                ++ safeSend env (some ws)
                  (fun c => OutMsg.gameEnded c wp.2.userData lp.2.userData ("you_left"))
                ++ roomsListToClients env
                    (alDelete (alSet st.rooms rid (endedRoom room lp.1 wp.1)) rid))
          else
            ({ st with rooms :=
                  (if (alDelete room.users lp.1).length = 0 then
                    alDelete (alSet st.rooms rid (shrunkRoom room lp.1)) rid
                  else alSet st.rooms rid (shrunkRoom room lp.1)) },
              broadcast env (alSet st.rooms rid (shrunkRoom room lp.1)) rid
                (fun c => OutMsg.userLeft c lp.2.userData
                  ((alDelete room.users lp.1).map (fun p => p.2.userData))) none
              ++ safeSend env (some ws) (fun c => OutMsg.leftRoom c rid)
              ++ roomsListToClients env
                  (if (alDelete room.users lp.1).length = 0 then
                    alDelete (alSet st.rooms rid (shrunkRoom room lp.1)) rid
                  else alSet st.rooms rid (shrunkRoom room lp.1)))

/-- chat_message handler, server.js lines 313-335. No state mutation. -/
def handleChat (env : Env) (ws : ConnId) (payload : Payload) (st : ServerState) :
    ServerState × List OutMsg :=
  match payload.roomId, payload.message with
  | some rid, some msgText =>
    if rid = "" ∨ msgText = "" then (st, [])
    else
      match alGet st.rooms rid with
      | none => (st, [])
      | some room =>
        match room.users.find? (fun p => p.2.ws == some ws) with
        | none => (st, [])
        | some sp =>
          (st, broadcast env st.rooms rid
            (fun c => OutMsg.chatMsg c sp.2.userData.fullName msgText) (some sp.1))
  | _, _ => (st, [])

/-- close handler, server.js lines 339-392: scan the rooms in order for
the first one holding a member whose stored handle is the closed
connection, then run the leave logic without any reply to the closed
connection. -/
def handleClose (env : Env) (ws : ConnId) (st : ServerState) :
    ServerState × List OutMsg :=
  match st.rooms.find? (fun p => (p.2.users.find? (fun q => q.2.ws == some ws)).isSome) with
  | none => (st, [])
  | some rp =>
    match rp.2.users.find? (fun q => q.2.ws == some ws) with
    | none => (st, [])
    | some lp =>
      if rp.2.started && decide (0 < (alDelete rp.2.users lp.1).length) then
        match (alDelete rp.2.users lp.1).head? with
        | none => (st, [])
        | some wp =>
          ({ st with rooms := alDelete (alSet st.rooms rp.1 (endedRoom rp.2 lp.1 wp.1)) rp.1, history := alSet st.history rp.1 (endedRoom rp.2 lp.1 wp.1) },
            broadcast env (alSet st.rooms rp.1 (endedRoom rp.2 lp.1 wp.1)) rp.1
              (fun c => OutMsg.gameEnded c wp.2.userData lp.2.userData ("opponent_left")) none
            ++ roomsListToClients env
                (alDelete (alSet st.rooms rp.1 (endedRoom rp.2 lp.1 wp.1)) rp.1))
      else
        ({ st with rooms :=
              (if (alDelete rp.2.users lp.1).length = 0 then
                alDelete (alSet st.rooms rp.1 (shrunkRoom rp.2 lp.1)) rp.1
              else alSet st.rooms rp.1 (shrunkRoom rp.2 lp.1)) },
          broadcast env (alSet st.rooms rp.1 (shrunkRoom rp.2 lp.1)) rp.1
            (fun c => OutMsg.userLeft c lp.2.userData
              ((alDelete rp.2.users lp.1).map (fun p => p.2.userData))) none
          ++ roomsListToClients env
              (if (alDelete rp.2.users lp.1).length = 0 then
                alDelete (alSet st.rooms rp.1 (shrunkRoom rp.2 lp.1)) rp.1
              else alSet st.rooms rp.1 (shrunkRoom rp.2 lp.1)))

/-- Message dispatcher, server.js lines 133-338. A missing type tag and
the empty string are both falsy in the JavaScript check, hence both
answer missing_type. -/
def handleMessage (env : Env) (ws : ConnId) (raw : InRaw) (freshId : String)
    (st : ServerState) : Except JsErr (ServerState × List OutMsg) :=
  match raw with
  | InRaw.unparseable =>
      Except.ok (st, safeSend env (some ws) (fun c => OutMsg.errorMsg c ("invalid_json")))
  | InRaw.parsed none _ =>
      Except.ok (st, safeSend env (some ws) (fun c => OutMsg.errorMsg c ("missing_type")))
  | InRaw.parsed (some t) payload =>
    match t with
    | "" => Except.ok (st, safeSend env (some ws) (fun c => OutMsg.errorMsg c ("missing_type")))
    | "create_room" => Except.ok (handleCreate env ws freshId st)
    | "list_rooms" =>
        Except.ok (st, safeSend env (some ws) (fun c => OutMsg.roomsList c (roomSummaries st.rooms)))
    | "join_room" => handleJoin env ws payload st
    | "leave_room" => Except.ok (handleLeave env ws payload st)
    | "chat_message" => Except.ok (handleChat env ws payload st)
    | _ => Except.ok (st, safeSend env (some ws) (fun c => OutMsg.unknownType c t))

/-- State after a handler result: on a thrown exception the mutations
performed before the throw survive; the only throw point is before any
mutation, so the pre-state is kept. -/
def stateAfter (st : ServerState) (r : Except JsErr (ServerState × List OutMsg)) : ServerState :=
  match r with
  | Except.ok q => q.1
  | Except.error _ => st

/-- Messages sent by a handler result; nothing was sent before the only
throw point. -/
def outAfter (r : Except JsErr (ServerState × List OutMsg)) : List OutMsg :=
  match r with
  | Except.ok q => q.2
  | Except.error _ => []

/-- A room-lifecycle event: an inbound frame on a connection (with the
fresh random id create_room would use) or a connection close. -/
inductive Event where
  | inbound (ws : ConnId) (raw : InRaw) (freshId : String)
  | close (ws : ConnId)

def step (env : Env) (st : ServerState) (e : Event) : ServerState :=
  match e with
  | Event.inbound ws raw freshId => stateAfter st (handleMessage env ws raw freshId st)
  | Event.close ws => (handleClose env ws st).1

def run (env : Env) (es : List Event) (st : ServerState) : ServerState :=
  match es with
  | [] => st
  | e :: rest => run env rest (step env st e)

/-- Fresh-start state, server.js lines 55-56. -/
def initialState : ServerState := { rooms := [], history := [] }

-- =====================
-- Persistence adapter, server.js lines 59-93. The Redis transport and
-- the JSON string level are modelled as the identity on the serialized
-- records; saveRooms and loadRooms below are the two mapping functions.
-- =====================

structure SerializedUser where
  email : String
  userData : UserData
  deriving DecidableEq

/-- One element of the record saveRooms writes: the map key plus the
object spread of the room (id, challenge, started, winner, loser) with
users replaced by handle-free entries. -/
structure SerializedRoom where
  roomId : String
  id : String
  challenge : Challenge
  started : Bool
  winner : Option String
  loser : Option String
  users : List SerializedUser
  deriving DecidableEq

/-- saveRooms, server.js lines 59-74. -/
def saveRooms (rooms : List (String × Room)) : List SerializedRoom :=
  rooms.map (fun p =>
    { roomId := p.1, id := p.2.id, challenge := p.2.challenge, started := p.2.started
    , winner := p.2.winner, loser := p.2.loser
    , users := p.2.users.map (fun q => { email := q.1, userData := q.2.userData }) })

/-- loadRooms, server.js lines 77-93: rebuild the map keyed by the stored
roomId, with a users map reconstructed without any ws handle. -/
def loadRooms (l : List SerializedRoom) : List (String × Room) :=
  l.map (fun sr =>
    (sr.roomId,
      { id := sr.id
      , users := sr.users.map (fun u => (u.email, { ws := none, userData := u.userData }))
      , challenge := sr.challenge, started := sr.started
      , winner := sr.winner, loser := sr.loser }))

/-- Specification-side description of the round trip: the same store with
every stored connection handle cleared. -/
def clearHandles (rooms : List (String × Room)) : List (String × Room) :=
  rooms.map (fun p =>
    (p.1, { p.2 with users := p.2.users.map (fun q => (q.1, { q.2 with ws := none })) }))

-- =====================
-- Observation helpers
-- =====================

def msgTo (m : OutMsg) : ConnId :=
  match m with
  | OutMsg.welcome c _ => c
  | OutMsg.errorMsg c _ => c
  | OutMsg.roomCreated c _ _ => c
  | OutMsg.roomsList c _ => c
  | OutMsg.joinError c _ => c
  | OutMsg.joinedRoom c _ _ _ _ => c
  | OutMsg.userJoined c _ => c
  | OutMsg.gameStarted c _ => c
  | OutMsg.userLeft c _ _ => c
  | OutMsg.leftRoom c _ => c
  | OutMsg.gameEnded c _ _ _ => c
  | OutMsg.chatMsg c _ _ => c
  | OutMsg.unknownType c _ => c

def isJoinedRoom (m : OutMsg) : Bool :=
  match m with
  | OutMsg.joinedRoom _ _ _ _ _ => true
  | _ => false

def isUserJoined (m : OutMsg) : Bool :=
  match m with
  | OutMsg.userJoined _ _ => true
  | _ => false

/-- The capacity invariant: every live room holds at most 2 members. -/
def roomsBounded (m : List (String × Room)) : Bool :=
  m.all (fun p => decide (p.2.users.length ≤ 2))

-- =====================
-- Concrete fixtures used by witnesses and counterexamples
-- =====================

/-- All connections open, no transport failures, no listed clients. -/
def envA : Env := { clients := [], isOpen := fun _ => true, sendFails := fun _ => false }

/-- All connections open, but every send on connection 1 throws at the
transport level. -/
def envFail1 : Env := { clients := [], isOpen := fun _ => true, sendFails := fun c => c == 1 }

def udA : UserData := { email := ("a@x"), fullName := ("A") }

def udB : UserData := { email := ("b@x"), fullName := ("B") }

def udC : UserData := { email := ("c@x"), fullName := ("C") }

/-- A started two-member room: a@x bound to connection 2, b@x bound to
connection 3. -/
def roomAB : Room :=
  { id := ("r1")
  , users :=
      [(("a@x"), { ws := some 2, userData := udA })
      , (("b@x"), { ws := some 3, userData := udB })]
  , challenge := getRandomChallenge, started := true, winner := none, loser := none }

def stAB : ServerState := { rooms := [(("r1"), roomAB)], history := [] }

/-- A waiting one-member room: a@x bound to connection 2. -/
def roomA1 : Room :=
  { id := ("r2"), users := [(("a@x"), { ws := some 2, userData := udA })]
  , challenge := getRandomChallenge, started := false, winner := none, loser := none }

def stA1 : ServerState := { rooms := [(("r2"), roomA1)], history := [] }

/-- A started room as reconstructed from a snapshot: no member has a
bound connection handle. -/
def roomRestored : Room :=
  { id := ("r3")
  , users :=
      [(("a@x"), { ws := none, userData := udA })
      , (("b@x"), { ws := none, userData := udB })]
  , challenge := getRandomChallenge, started := true, winner := none, loser := none }

def stRestored : ServerState := { rooms := [(("r3"), roomRestored)], history := [] }

/-- Room used by the broadcast witness: e@x bound to the failing
connection 1, b@x bound to the healthy connection 3. -/
def roomC9 : Room :=
  { id := ("r9")
  , users :=
      [(("e@x"), { ws := some 1, userData := udA })
      , (("b@x"), { ws := some 3, userData := udB })]
  , challenge := getRandomChallenge, started := true, winner := none, loser := none }

-- =====================
-- Lemmas about the Map model
-- =====================

theorem alGet_alSet_self {α : Type} (m : List (String × α)) (k : String) (v : α) :
    alGet (alSet m k v) k = some v := by
  induction m with
  | nil => simp [alSet, alGet]
  | cons p rest ih =>
    by_cases hk : p.1 = k
    · simp [alSet, alGet, hk]
    · simp [alSet, alGet, hk, ih]

theorem alGet_alSet_ne {α : Type} (m : List (String × α)) (k k' : String) (v : α)
    (h : k' ≠ k) : alGet (alSet m k v) k' = alGet m k' := by
  have hne : ¬k = k' := fun hh => h hh.symm
  induction m with
  | nil => simp [alSet, alGet, hne]
  | cons p rest ih =>
    by_cases hk : p.1 = k
    · have hk' : ¬p.1 = k' := by rw [hk]; exact hne
      simp [alSet, alGet, hk, hk', hne]
    · by_cases hk' : p.1 = k'
      · simp [alSet, alGet, hk, hk', hne, h]
      · simp [alSet, alGet, hk, hk', hne, h, ih]

theorem length_alSet_present {α : Type} (m : List (String × α)) (k : String) (v : α)
    (h : (alGet m k).isSome = true) : (alSet m k v).length = m.length := by
  induction m with
  | nil => simp [alGet] at h
  | cons p rest ih =>
    by_cases hk : p.1 = k
    · simp [alSet, hk]
    · simp only [alGet, if_neg hk] at h
      simp [alSet, hk, ih h]

theorem length_alSet_absent {α : Type} (m : List (String × α)) (k : String) (v : α)
    (h : alGet m k = none) : (alSet m k v).length = m.length + 1 := by
  induction m with
  | nil => simp [alSet]
  | cons p rest ih =>
    by_cases hk : p.1 = k
    · simp [alGet, hk] at h
    · simp only [alGet, if_neg hk] at h
      simp [alSet, hk, ih h]

theorem mem_alSet_val {α : Type} (m : List (String × α)) (k : String) (v : α)
    (p : String × α) (h : p ∈ alSet m k v) : p.2 = v ∨ p ∈ m := by
  induction m with
  | nil =>
    simp [alSet] at h
    simp [h]
  | cons q rest ih =>
    by_cases hk : q.1 = k
    · simp only [alSet, if_pos hk, List.mem_cons] at h
      rcases h with h | h
      · left; simp [h]
      · right; simp [h]
    · simp only [alSet, if_neg hk, List.mem_cons] at h
      rcases h with h | h
      · right; simp [h]
      · rcases ih h with h' | h'
        · left; exact h'
        · right; simp [h']

theorem mem_alDelete {α : Type} (m : List (String × α)) (k : String)
    (p : String × α) (h : p ∈ alDelete m k) : p ∈ m := by
  induction m with
  | nil => simp [alDelete] at h
  | cons q rest ih =>
    by_cases hk : q.1 = k
    · simp only [alDelete, if_pos hk] at h
      simp [h]
    · simp only [alDelete, if_neg hk, List.mem_cons] at h
      rcases h with h | h
      · simp [h]
      · simp [ih h]

theorem length_alDelete_le {α : Type} (m : List (String × α)) (k : String) :
    (alDelete m k).length ≤ m.length := by
  induction m with
  | nil => simp [alDelete]
  | cons q rest ih =>
    by_cases hk : q.1 = k
    · simp [alDelete, hk]
    · simp only [alDelete, if_neg hk, List.length_cons]
      omega

theorem alGet_eq_none_of_not_mem_keys {α : Type} (m : List (String × α)) (k : String)
    (h : k ∉ m.map Prod.fst) : alGet m k = none := by
  induction m with
  | nil => simp [alGet]
  | cons q rest ih =>
    simp only [List.map_cons, List.mem_cons] at h
    push_neg at h
    have hq : ¬q.1 = k := fun hh => h.1 hh.symm
    simp [alGet, hq, ih h.2]

theorem alGet_alDelete_self {α : Type} (m : List (String × α)) (k : String)
    (h : (m.map Prod.fst).Nodup) : alGet (alDelete m k) k = none := by
  induction m with
  | nil => simp [alDelete, alGet]
  | cons q rest ih =>
    simp only [List.map_cons, List.nodup_cons] at h
    by_cases hk : q.1 = k
    · simp only [alDelete, if_pos hk]
      exact alGet_eq_none_of_not_mem_keys rest k (hk ▸ h.1)
    · simp [alDelete, hk, alGet, ih h.2]

theorem keys_alSet_present {α : Type} (m : List (String × α)) (k : String) (v : α)
    (h : (alGet m k).isSome = true) :
    (alSet m k v).map Prod.fst = m.map Prod.fst := by
  induction m with
  | nil => simp [alGet] at h
  | cons p rest ih =>
    by_cases hk : p.1 = k
    · simp [alSet, hk]
    · simp only [alGet, if_neg hk] at h
      simp [alSet, hk, ih h]

theorem alGet_mem {α : Type} (m : List (String × α)) (k : String) (v : α)
    (h : alGet m k = some v) : (k, v) ∈ m := by
  induction m with
  | nil => simp [alGet] at h
  | cons p rest ih =>
    by_cases hk : p.1 = k
    · simp only [alGet, if_pos hk, Option.some.injEq] at h
      obtain ⟨a, b⟩ := p
      simp only at hk h
      subst hk
      subst h
      exact List.mem_cons_self _ _
    · simp only [alGet, if_neg hk] at h
      exact List.mem_cons_of_mem _ (ih h)

theorem mem_concatMap {α β : Type} (f : α → List β) (l : List α) (b : β) :
    b ∈ concatMap f l ↔ ∃ a, a ∈ l ∧ b ∈ f a := by
  induction l with
  | nil => simp [concatMap]
  | cons a rest ih =>
    simp only [concatMap, List.mem_append, ih, List.mem_cons]
    constructor
    · rintro (h | ⟨a', ha', hb⟩)
      · exact ⟨a, Or.inl rfl, h⟩
      · exact ⟨a', Or.inr ha', hb⟩
    · rintro ⟨a', ha', hb⟩
      rcases ha' with rfl | ha'
      · exact Or.inl hb
      · exact Or.inr ⟨a', ha', hb⟩

theorem all_concatMap {α β : Type} (f : α → List β) (l : List α) (P : β → Bool)
    (h : ∀ a, a ∈ l → (f a).all P = true) : (concatMap f l).all P = true := by
  induction l with
  | nil => simp [concatMap]
  | cons a rest ih =>
    have h1 := h a (List.mem_cons_self a rest)
    have h2 : ∀ a', a' ∈ rest → (f a').all P = true := fun a' ha' =>
      h a' (List.mem_cons_of_mem a ha')
    simp [concatMap, List.all_append, h1, ih h2]

-- =====================
-- Dispatcher reduction lemmas
-- =====================

theorem handleMessage_unparseable (env : Env) (ws : ConnId) (fid : String) (st : ServerState) :
    handleMessage env ws InRaw.unparseable fid st
      = Except.ok (st, safeSend env (some ws) (fun c => OutMsg.errorMsg c ("invalid_json"))) := rfl

theorem handleMessage_noType (env : Env) (ws : ConnId) (p : Payload) (fid : String)
    (st : ServerState) :
    handleMessage env ws (InRaw.parsed none p) fid st
      = Except.ok (st, safeSend env (some ws) (fun c => OutMsg.errorMsg c ("missing_type"))) := rfl

theorem handleMessage_join (env : Env) (ws : ConnId) (p : Payload) (fid : String)
    (st : ServerState) :
    handleMessage env ws (InRaw.parsed (some ("join_room")) p) fid st
      = handleJoin env ws p st := rfl

theorem handleMessage_leave (env : Env) (ws : ConnId) (p : Payload) (fid : String)
    (st : ServerState) :
    handleMessage env ws (InRaw.parsed (some ("leave_room")) p) fid st
      = Except.ok (handleLeave env ws p st) := rfl

-- =====================
-- Send and broadcast lemmas
-- =====================

theorem safeSend_delivered (env : Env) (c : ConnId) (mk : ConnId → OutMsg)
    (hopen : env.isOpen c = true) (hfail : env.sendFails c = false) :
    safeSend env (some c) mk = [mk c] := by
  simp [safeSend, hopen, hfail]

theorem mem_safeSend (env : Env) (w : Option ConnId) (mk : ConnId → OutMsg) (m : OutMsg)
    (h : m ∈ safeSend env w mk) : ∃ c, w = some c ∧ m = mk c := by
  cases w with
  | none => simp [safeSend] at h
  | some c =>
    refine ⟨c, rfl, ?_⟩
    by_cases hc : env.isOpen c && !env.sendFails c
    · simp [safeSend, hc] at h
      exact h
    · simp [safeSend, hc] at h

theorem safeSend_all (env : Env) (w : Option ConnId) (mk : ConnId → OutMsg) (P : OutMsg → Bool)
    (h : ∀ c, P (mk c) = true) : (safeSend env w mk).all P = true := by
  cases w with
  | none => simp [safeSend]
  | some c =>
    by_cases hc : env.isOpen c && !env.sendFails c
    · simp [safeSend, hc, h]
    · simp [safeSend, hc]

theorem broadcast_all (env : Env) (rooms : List (String × Room)) (rid : String)
    (mk : ConnId → OutMsg) (ex : Option String) (P : OutMsg → Bool)
    (h : ∀ c, P (mk c) = true) : (broadcast env rooms rid mk ex).all P = true := by
  unfold broadcast
  cases alGet rooms rid with
  | none => simp
  | some room =>
    refine all_concatMap _ _ _ ?_
    intro p _
    by_cases hp : exceptMatch ex p.1 = true
    · simp [hp]
    · rw [if_neg hp]
      exact safeSend_all _ _ _ _ h

theorem roomsListToClients_all (env : Env) (rooms : List (String × Room)) (P : OutMsg → Bool)
    (h : ∀ c l, P (OutMsg.roomsList c l) = true) :
    (roomsListToClients env rooms).all P = true := by
  unfold roomsListToClients
  refine all_concatMap _ _ _ ?_
  intro c _
  by_cases hc : env.isOpen c
  · simp only [if_pos hc]
    exact safeSend_all _ _ _ _ (fun d => h d _)
  · simp [hc]

theorem mem_broadcast (env : Env) (rooms : List (String × Room)) (rid : String)
    (mk : ConnId → OutMsg) (ex : Option String) (room : Room) (p : String × Member) (c : ConnId)
    (hroom : alGet rooms rid = some room) (hp : p ∈ room.users)
    (hex : exceptMatch ex p.1 = false) (hws : p.2.ws = some c)
    (hopen : env.isOpen c = true) (hfail : env.sendFails c = false) :
    mk c ∈ broadcast env rooms rid mk ex := by
  unfold broadcast
  rw [hroom]
  rw [mem_concatMap]
  refine ⟨p, hp, ?_⟩
  have hneg : ¬(exceptMatch ex p.1 = true) := by rw [hex]; exact Bool.false_ne_true
  rw [if_neg hneg, hws, safeSend_delivered env c mk hopen hfail]
  exact List.mem_singleton.mpr rfl

-- =====================
-- The capacity invariant (claim C1)
-- =====================

theorem roomsBounded_iff (m : List (String × Room)) :
    roomsBounded m = true ↔ ∀ p ∈ m, p.2.users.length ≤ 2 := by
  simp [roomsBounded, List.all_eq_true]

theorem bounded_of_alGet (m : List (String × Room)) (k : String) (room : Room)
    (h : roomsBounded m = true) (hg : alGet m k = some room) : room.users.length ≤ 2 :=
  (roomsBounded_iff m).mp h _ (alGet_mem m k room hg)

theorem roomsBounded_alSet (m : List (String × Room)) (k : String) (v : Room)
    (h : roomsBounded m = true) (hv : v.users.length ≤ 2) :
    roomsBounded (alSet m k v) = true := by
  rw [roomsBounded_iff] at h ⊢
  intro p hp
  rcases mem_alSet_val _ _ _ _ hp with h2 | h2
  · rw [h2]; exact hv
  · exact h p h2

theorem roomsBounded_alDelete (m : List (String × Room)) (k : String)
    (h : roomsBounded m = true) : roomsBounded (alDelete m k) = true := by
  rw [roomsBounded_iff] at h ⊢
  intro p hp
  exact h p (mem_alDelete _ _ _ hp)

theorem handleCreate_bounded (env : Env) (ws : ConnId) (fid : String) (st : ServerState)
    (h : roomsBounded st.rooms = true) :
    roomsBounded (handleCreate env ws fid st).1.rooms = true := by
  exact roomsBounded_alSet _ _ _ h (by simp [freshRoom])

theorem joinTail_bounded (env : Env) (rid : String) (room1 : Room) (st1 : ServerState)
    (outs : List OutMsg) (h : roomsBounded st1.rooms = true) (hr : room1.users.length ≤ 2) :
    roomsBounded (joinTail env rid room1 st1 outs).1.rooms = true := by
  unfold joinTail
  by_cases h2 : room1.users.length = 2
  · simp only [if_pos h2]
    exact roomsBounded_alSet _ _ _ h hr
  · simp only [if_neg h2]
    exact h

theorem handleJoin_bounded (env : Env) (ws : ConnId) (payload : Payload) (st : ServerState)
    (h : roomsBounded st.rooms = true) :
    roomsBounded (stateAfter st (handleJoin env ws payload st)).rooms = true := by
  unfold handleJoin
  split
  · exact h
  rename_i ud _
  split
  · exact h
  split
  · exact h
  rename_i rid
  split
  · exact h
  rename_i room hroom
  have hrb : room.users.length ≤ 2 := bounded_of_alGet _ _ _ h hroom
  split
  · rename_i m0 hmem
    have hlen : (alSet room.users ud.email { ws := some ws, userData := ud }).length ≤ 2 := by
      rw [length_alSet_present _ _ _ (by rw [hmem]; rfl)]
      exact hrb
    exact joinTail_bounded _ _ _ _ _ (roomsBounded_alSet _ _ _ h hlen) hlen
  rename_i hmem
  split
  · exact h
  rename_i hfull
  have hlen : (alSet room.users ud.email { ws := some ws, userData := ud }).length ≤ 2 := by
    rw [length_alSet_absent _ _ _ hmem]
    omega
  exact joinTail_bounded _ _ _ _ _ (roomsBounded_alSet _ _ _ h hlen) hlen

theorem handleLeave_bounded (env : Env) (ws : ConnId) (payload : Payload) (st : ServerState)
    (h : roomsBounded st.rooms = true) :
    roomsBounded (handleLeave env ws payload st).1.rooms = true := by
  unfold handleLeave
  split
  · exact h
  rename_i rid
  split
  · exact h
  split
  · exact h
  rename_i room hroom
  have hrb : room.users.length ≤ 2 := bounded_of_alGet _ _ _ h hroom
  split
  · exact h
  rename_i lp _
  have hdel : (alDelete room.users lp.1).length ≤ 2 :=
    le_trans (length_alDelete_le _ _) hrb
  split
  · split
    · exact h
    · exact roomsBounded_alDelete _ _ (roomsBounded_alSet _ _ _ h hdel)
  · split
    · exact roomsBounded_alDelete _ _ (roomsBounded_alSet _ _ _ h hdel)
    · exact roomsBounded_alSet _ _ _ h hdel

theorem handleChat_state (env : Env) (ws : ConnId) (payload : Payload) (st : ServerState) :
    (handleChat env ws payload st).1 = st := by
  unfold handleChat
  repeat (first | rfl | split)

theorem handleClose_bounded (env : Env) (ws : ConnId) (st : ServerState)
    (h : roomsBounded st.rooms = true) :
    roomsBounded (handleClose env ws st).1.rooms = true := by
  unfold handleClose
  split
  · exact h
  rename_i rp hfind
  have hrb : rp.2.users.length ≤ 2 :=
    (roomsBounded_iff _).mp h _ (List.mem_of_find?_eq_some hfind)
  split
  · exact h
  rename_i lp _
  have hdel : (alDelete rp.2.users lp.1).length ≤ 2 :=
    le_trans (length_alDelete_le _ _) hrb
  split
  · split
    · exact h
    · exact roomsBounded_alDelete _ _ (roomsBounded_alSet _ _ _ h hdel)
  · split
    · exact roomsBounded_alDelete _ _ (roomsBounded_alSet _ _ _ h hdel)
    · exact roomsBounded_alSet _ _ _ h hdel

theorem handleChat_bounded (env : Env) (ws : ConnId) (payload : Payload) (st : ServerState)
    (h : roomsBounded st.rooms = true) :
    roomsBounded (handleChat env ws payload st).1.rooms = true := by
  rw [handleChat_state]
  exact h

theorem step_bounded (env : Env) (st : ServerState) (e : Event)
    (h : roomsBounded st.rooms = true) : roomsBounded (step env st e).rooms = true := by
  cases e with
  | close ws => exact handleClose_bounded env ws st h
  | inbound ws raw fid =>
    cases raw with
    | unparseable => exact h
    | parsed msgType payload =>
      cases msgType with
      | none => exact h
      | some t =>
        show roomsBounded (stateAfter st (handleMessage env ws (InRaw.parsed (some t) payload) fid st)).rooms = true
        unfold handleMessage
        repeat' split
        all_goals first
          | exact h
          | (apply handleCreate_bounded; exact h)
          | (apply handleJoin_bounded; exact h)
          | (apply handleLeave_bounded; exact h)
          | (apply handleChat_bounded; exact h)

theorem concatMap_filter_eq {α β : Type} (f : α → List β) (q : α → Bool) (l : List α) :
    concatMap (fun a => if q a then [] else f a) l
      = concatMap f (l.filter (fun a => !(q a))) := by
  induction l with
  | nil => rfl
  | cons a rest ih =>
    by_cases hq : q a = true
    · simp [concatMap, hq, ih]
    · simp [concatMap, hq, ih]

theorem safeSend_all_self (env : Env) (ws : ConnId) (mk : ConnId → OutMsg) (P : OutMsg → Bool)
    (h : P (mk ws) = true) : (safeSend env (some ws) mk).all P = true := by
  by_cases hc : env.isOpen ws && !env.sendFails ws
  · simp [safeSend, hc, h]
  · simp [safeSend, hc]

theorem run_bounded (env : Env) (es : List Event) (st : ServerState)
    (h : roomsBounded st.rooms = true) : roomsBounded (run env es st).rooms = true := by
  induction es generalizing st with
  | nil => exact h
  | cons e rest ih => exact ih _ (step_bounded env st e h)

-- =====================
-- Claim theorems
-- =====================

/-- Claim C1: over every sequence of events processed from a fresh start,
every room in the live Room Store holds at most 2 members. The preserving
steps are exactly the ones the claim names: a fresh join into a full room
is rejected before any mutation, and a rejoin replaces the existing entry
in place, never growing the map. -/
theorem c1_room_capacity_invariant (env : Env) (es : List Event) :
    roomsBounded (run env es initialState).rooms = true :=
  run_bounded env es initialState rfl

/-- Claim C3: an unparseable body answers only the invalid_json error to
the sender with the state unchanged, a missing type tag answers only the
missing_type error with the state unchanged, but a join_room whose
payload has no userData object makes the handler throw a TypeError
instead of answering: the code reads payload.userData.email without a
guard, so the claimed crash-freedom fails on that input. -/
theorem c3_malformed_message_handling :
    (∀ (env : Env) (ws : ConnId) (fid : String) (st : ServerState),
      handleMessage env ws InRaw.unparseable fid st
        = Except.ok (st, safeSend env (some ws) (fun c => OutMsg.errorMsg c ("invalid_json"))))
    ∧ (∀ (env : Env) (ws : ConnId) (p : Payload) (fid : String) (st : ServerState),
      handleMessage env ws (InRaw.parsed none p) fid st
        = Except.ok (st, safeSend env (some ws) (fun c => OutMsg.errorMsg c ("missing_type"))))
    ∧ handleMessage envA 1
        (InRaw.parsed (some ("join_room"))
          { roomId := some ("r1"), userData := none, message := none })
        ("ff") stAB
        = Except.error (JsErr.typeError ("cannot read email of undefined")) :=
  ⟨fun _ _ _ _ => rfl, fun _ _ _ _ _ => rfl, rfl⟩

/-- Claim C6 as amended: a join_room carrying a userData object with a
nonempty email, aimed at a roomId absent from the Room Store, answers
join_error room_not_found to the requesting connection only, and the
whole server state is unchanged. -/
theorem c6_room_not_found (env : Env) (ws : ConnId) (rid : String) (ud : UserData)
    (pm : Option String) (fid : String) (st : ServerState)
    (he : ud.email ≠ "")
    (hroom : alGet st.rooms rid = none)
    (hopen : env.isOpen ws = true) (hfail : env.sendFails ws = false) :
    handleMessage env ws
      (InRaw.parsed (some ("join_room"))
        { roomId := some rid, userData := some ud, message := pm }) fid st
      = Except.ok (st, [OutMsg.joinError ws ("room_not_found")]) := by
  rw [handleMessage_join]
  unfold handleJoin
  simp only [if_neg he, hroom, safeSend_delivered env ws _ hopen hfail]

/-- Claim C6, counterexample to the unamended statement: a join_room
whose roomId is absent but whose email is empty answers missing_email,
not room_not_found, because the email check runs first. -/
theorem c6_counterexample :
    outAfter (handleMessage envA 1
      (InRaw.parsed (some ("join_room"))
        { roomId := some ("zz"), userData := some { email := (""), fullName := ("p") }
        , message := none }) ("f") initialState)
      = [OutMsg.joinError 1 ("missing_email")]
    ∧ OutMsg.joinError 1 ("room_not_found") ∉
        outAfter (handleMessage envA 1
          (InRaw.parsed (some ("join_room"))
            { roomId := some ("zz"), userData := some { email := (""), fullName := ("p") }
            , message := none }) ("f") initialState) := by
  constructor
  · rfl
  · decide

/-- Witness for c6_room_not_found at a concrete input. -/
theorem c6_room_not_found_witness :
    handleMessage envA 1
      (InRaw.parsed (some ("join_room"))
        { roomId := some ("zz"), userData := some udC, message := none }) ("f") stAB
      = Except.ok (stAB, [OutMsg.joinError 1 ("room_not_found")]) :=
  c6_room_not_found envA 1 ("zz") udC none ("f") stAB (by decide) (by decide) rfl rfl

/-- Claim C7: a fresh join (nonempty email, not already a member) into a
room already holding 2 members answers join_error room_full to the
requesting connection only and leaves the whole server state, including
that room and both member entries, unchanged. -/
theorem c7_room_full_rejected (env : Env) (ws : ConnId) (rid : String) (ud : UserData)
    (pm : Option String) (fid : String) (st : ServerState) (room : Room)
    (he : ud.email ≠ "")
    (hroom : alGet st.rooms rid = some room)
    (hmem : alGet room.users ud.email = none)
    (hfull : 2 ≤ room.users.length)
    (hopen : env.isOpen ws = true) (hfail : env.sendFails ws = false) :
    handleMessage env ws
      (InRaw.parsed (some ("join_room"))
        { roomId := some rid, userData := some ud, message := pm }) fid st
      = Except.ok (st, [OutMsg.joinError ws ("room_full")]) := by
  rw [handleMessage_join]
  unfold handleJoin
  simp only [if_neg he, hroom, hmem, if_pos hfull, safeSend_delivered env ws _ hopen hfail]

/-- Witness for c7_room_full_rejected at a concrete input. -/
theorem c7_room_full_rejected_witness :
    handleMessage envA 7
      (InRaw.parsed (some ("join_room"))
        { roomId := some ("r1"), userData := some udC, message := none }) ("f") stAB
      = Except.ok (stAB, [OutMsg.joinError 7 ("room_full")]) :=
  c7_room_full_rejected envA 7 ("r1") udC none ("f") stAB roomAB
    (by decide) (by decide) (by decide) (by decide) rfl rfl

/-- Claim C8: reloading a saved Room Store yields the same keys and, per
room, the same id, challenge, started flag, winner, loser and the same
member emails and profiles in order, with every stored connection handle
cleared. -/
theorem c8_persistence_roundtrip (rooms : List (String × Room)) :
    loadRooms (saveRooms rooms) = clearHandles rooms := by
  induction rooms with
  | nil => rfl
  | cons p rest ih =>
    simp only [loadRooms, saveRooms, clearHandles, List.map_cons, List.map_map] at ih ⊢
    rw [List.cons.injEq]
    exact ⟨rfl, ih⟩

/-- Claim C9: with an excluded identity, broadcast delivers to exactly
the non-excluded members (their delivery depending only on their own
handle and connection), and each non-excluded member with an open,
healthy connection receives the message no matter how stale or failing
any other member of the room is; the model totalises the try/catch in
safeSend, so no delivery can abort the batch. -/
theorem c9_broadcast_exclusion_resilience (env : Env) (rooms : List (String × Room))
    (rid ex : String) (mk : ConnId → OutMsg) (room : Room)
    (hroom : alGet rooms rid = some room) :
    broadcast env rooms rid mk (some ex)
      = concatMap (fun p => safeSend env p.2.ws mk)
          (room.users.filter (fun p => !(p.1 == ex)))
    ∧ ∀ (p : String × Member) (c : ConnId), p ∈ room.users → p.1 ≠ ex → p.2.ws = some c →
        env.isOpen c = true → env.sendFails c = false →
        mk c ∈ broadcast env rooms rid mk (some ex) := by
  constructor
  · unfold broadcast
    rw [hroom]
    exact concatMap_filter_eq (fun p => safeSend env p.2.ws mk) (fun p => exceptMatch (some ex) p.1) room.users
  · intro p c hp hne hws hopen hfail
    exact mem_broadcast env rooms rid mk (some ex) room p c hroom hp
      (by simp [exceptMatch, hne]) hws hopen hfail

/-- Witness for c9_broadcast_exclusion_resilience: the excluded member
e@x receives nothing, the send to connection 1 fails, yet b@x on
connection 3 still receives the message. -/
theorem c9_broadcast_witness :
    OutMsg.gameStarted 3 300 ∈
      broadcast envFail1 [(("r9"), roomC9)] ("r9")
        (fun c => OutMsg.gameStarted c 300) (some ("e@x")) :=
  (c9_broadcast_exclusion_resilience envFail1 [(("r9"), roomC9)] ("r9") ("e@x")
      (fun c => OutMsg.gameStarted c 300) roomC9 (by decide)).2
    ((("b@x"), { ws := some 3, userData := udB })) 3
    (by decide) (by decide) rfl rfl rfl

/-- Claim C10: leave_room and the close handler identify the departing
member by the stored connection handle. A leave_room from a connection
that is not the stored handle of any member of the addressed room, and a
close of a connection that matches no member of any live room, leave the
state untouched and send nothing to anyone. -/
theorem c10_foreign_connection_noop (env : Env) (ws : ConnId) (rid : String)
    (pu : Option UserData) (pm : Option String) (fid : String) (st : ServerState) (room : Room) :
    (rid ≠ "" → alGet st.rooms rid = some room →
      room.users.find? (fun p => p.2.ws == some ws) = none →
      handleMessage env ws
        (InRaw.parsed (some ("leave_room"))
          { roomId := some rid, userData := pu, message := pm }) fid st
        = Except.ok (st, []))
    ∧ (st.rooms.find? (fun p => (p.2.users.find? (fun q => q.2.ws == some ws)).isSome) = none →
      handleClose env ws st = (st, [])) := by
  constructor
  · intro hrne hroom hfind
    rw [handleMessage_leave]
    unfold handleLeave
    simp only [if_neg hrne, hroom, hfind]
  · intro hfind
    unfold handleClose
    simp only [hfind]

/-- Witness for c10_foreign_connection_noop: connection 9 against a room
restored from a snapshot (all handles cleared) is a no-op for both
leave_room and close. -/
theorem c10_foreign_connection_noop_witness :
    handleMessage envA 9
      (InRaw.parsed (some ("leave_room"))
        { roomId := some ("r3"), userData := none, message := none }) ("f") stRestored
      = Except.ok (stRestored, [])
    ∧ handleClose envA 9 stRestored = (stRestored, []) :=
  ⟨(c10_foreign_connection_noop envA 9 ("r3") none none ("f") stRestored roomRestored).1
      (by decide) (by decide) (by decide)
  , (c10_foreign_connection_noop envA 9 ("r3") none none ("f") stRestored roomRestored).2
      (by decide)⟩

/-- Claim C2: when a member of a started room departs while another
member remains, the handler records the head remaining member as winner
and the departed member as loser, moves the ended room into the history
map, deletes it from the live Room Store, and sends the remaining member
game_ended with reason opponent_left; an explicit leave_room additionally
answers the leaver with game_ended reason you_left. Both the leave_room
handler and the close handler are covered. -/
theorem c2_active_departure_ends_game (env : Env) (ws : ConnId) (rid : String)
    (pu : Option UserData) (pm : Option String) (fid : String) (st : ServerState) (room : Room)
    (le we : String) (lu wu : Member) (wc : ConnId)
    (hrne : rid ≠ "")
    (hroom : alGet st.rooms rid = some room)
    (hnd : (st.rooms.map Prod.fst).Nodup)
    (hstarted : room.started = true)
    (hfind : room.users.find? (fun p => p.2.ws == some ws) = some (le, lu))
    (hrest : (alDelete room.users le).head? = some (we, wu))
    (hfirst : st.rooms.find? (fun p => (p.2.users.find? (fun q => q.2.ws == some ws)).isSome)
        = some (rid, room))
    (hwc : wu.ws = some wc) (hwopen : env.isOpen wc = true) (hwfail : env.sendFails wc = false)
    (hlopen : env.isOpen ws = true) (hlfail : env.sendFails ws = false) :
    (handleMessage env ws
        (InRaw.parsed (some ("leave_room"))
          { roomId := some rid, userData := pu, message := pm }) fid st
      = Except.ok (handleLeave env ws { roomId := some rid, userData := pu, message := pm } st))
    ∧ alGet (handleLeave env ws { roomId := some rid, userData := pu, message := pm } st).1.rooms rid
        = none
    ∧ (alGet (handleLeave env ws { roomId := some rid, userData := pu, message := pm } st).1.history rid).map Room.winner
        = some (some we)
    ∧ (alGet (handleLeave env ws { roomId := some rid, userData := pu, message := pm } st).1.history rid).map Room.loser
        = some (some le)
    ∧ OutMsg.gameEnded wc wu.userData lu.userData ("opponent_left")
        ∈ (handleLeave env ws { roomId := some rid, userData := pu, message := pm } st).2
    ∧ OutMsg.gameEnded ws wu.userData lu.userData ("you_left")
        ∈ (handleLeave env ws { roomId := some rid, userData := pu, message := pm } st).2
    ∧ alGet (handleClose env ws st).1.rooms rid = none
    ∧ (alGet (handleClose env ws st).1.history rid).map Room.winner = some (some we)
    ∧ (alGet (handleClose env ws st).1.history rid).map Room.loser = some (some le)
    ∧ OutMsg.gameEnded wc wu.userData lu.userData ("opponent_left") ∈ (handleClose env ws st).2
    := by
  have hlen : 0 < (alDelete room.users le).length := by
    cases hdel : alDelete room.users le with
    | nil => rw [hdel] at hrest; cases hrest
    | cons a t => simp [hdel]
  have hwuin : ((we, wu) : String × Member) ∈ alDelete room.users le := by
    cases hdel : alDelete room.users le with
    | nil => rw [hdel] at hrest; cases hrest
    | cons a t =>
      rw [hdel] at hrest
      simp only [List.head?_cons, Option.some.injEq] at hrest
      rw [← hrest]
      exact List.mem_cons_self a t
  have hguard : (room.started && decide (0 < (alDelete room.users le).length)) = true := by
    rw [hstarted]
    simp [hlen]
  have hLeq : handleLeave env ws { roomId := some rid, userData := pu, message := pm } st
      = ({ st with rooms := alDelete (alSet st.rooms rid (endedRoom room le we)) rid, history := alSet st.history rid (endedRoom room le we) },
        broadcast env (alSet st.rooms rid (endedRoom room le we)) rid
          (fun c => OutMsg.gameEnded c wu.userData lu.userData ("opponent_left")) none
        ++ safeSend env (some ws)
          (fun c => OutMsg.gameEnded c wu.userData lu.userData ("you_left"))
        ++ roomsListToClients env (alDelete (alSet st.rooms rid (endedRoom room le we)) rid)) := by
    unfold handleLeave
    simp only [if_neg hrne, hroom, hfind, hguard, if_pos, hrest]
  have hCeq : handleClose env ws st
      = ({ st with rooms := alDelete (alSet st.rooms rid (endedRoom room le we)) rid, history := alSet st.history rid (endedRoom room le we) },
        broadcast env (alSet st.rooms rid (endedRoom room le we)) rid
          (fun c => OutMsg.gameEnded c wu.userData lu.userData ("opponent_left")) none
        ++ roomsListToClients env (alDelete (alSet st.rooms rid (endedRoom room le we)) rid)) := by
    unfold handleClose
    simp only [hfirst, hfind, hguard, if_pos, hrest]
  have hkeys : (alSet st.rooms rid (endedRoom room le we)).map Prod.fst = st.rooms.map Prod.fst :=
    keys_alSet_present st.rooms rid (endedRoom room le we) (by rw [hroom]; rfl)
  have hgone : alGet (alDelete (alSet st.rooms rid (endedRoom room le we)) rid) rid = none :=
    alGet_alDelete_self _ _ (by rw [hkeys]; exact hnd)
  have hhist : alGet (alSet st.history rid (endedRoom room le we)) rid
      = some (endedRoom room le we) := alGet_alSet_self _ _ _
  have hbmem : OutMsg.gameEnded wc wu.userData lu.userData ("opponent_left")
      ∈ broadcast env (alSet st.rooms rid (endedRoom room le we)) rid
          (fun c => OutMsg.gameEnded c wu.userData lu.userData ("opponent_left")) none :=
    mem_broadcast env (alSet st.rooms rid (endedRoom room le we)) rid
      (fun c => OutMsg.gameEnded c wu.userData lu.userData ("opponent_left")) none
      (endedRoom room le we) ((we, wu)) wc (alGet_alSet_self _ _ _) hwuin rfl hwc hwopen hwfail
  have hymem : OutMsg.gameEnded ws wu.userData lu.userData ("you_left")
      ∈ safeSend env (some ws)
          (fun c => OutMsg.gameEnded c wu.userData lu.userData ("you_left")) := by
    rw [safeSend_delivered env ws _ hlopen hlfail]
    exact List.mem_singleton.mpr rfl
  refine ⟨rfl, ?_, ?_, ?_, ?_, ?_, ?_, ?_, ?_, ?_⟩
  · rw [hLeq]; exact hgone
  · rw [hLeq]; simp only [hhist]; rfl
  · rw [hLeq]; simp only [hhist]; rfl
  · rw [hLeq]
    exact List.mem_append_left _ (List.mem_append_left _ hbmem)
  · rw [hLeq]
    exact List.mem_append_left _ (List.mem_append_right _ hymem)
  · rw [hCeq]; exact hgone
  · rw [hCeq]; simp only [hhist]; rfl
  · rw [hCeq]; simp only [hhist]; rfl
  · rw [hCeq]
    exact List.mem_append_left _ hbmem

/-- Witness for c2_active_departure_ends_game: a@x on connection 2
leaves the started room r1; the room is removed, b@x is recorded as
winner in history, and b@x on connection 3 receives game_ended with
reason opponent_left. -/
theorem c2_active_departure_witness :
    alGet (handleLeave envA 2
        { roomId := some ("r1"), userData := none, message := none } stAB).1.rooms ("r1") = none
    ∧ OutMsg.gameEnded 3 udB udA ("opponent_left")
        ∈ (handleLeave envA 2
            { roomId := some ("r1"), userData := none, message := none } stAB).2
    ∧ OutMsg.gameEnded 2 udB udA ("you_left")
        ∈ (handleLeave envA 2
            { roomId := some ("r1"), userData := none, message := none } stAB).2
    ∧ OutMsg.gameEnded 3 udB udA ("opponent_left") ∈ (handleClose envA 2 stAB).2 :=
  ⟨(c2_active_departure_ends_game envA 2 ("r1") none none ("f") stAB roomAB
      ("a@x") ("b@x") ({ ws := some 2, userData := udA }) ({ ws := some 3, userData := udB }) 3
      (by decide) (by decide) (by decide) (by decide) (by decide) (by decide) (by decide)
      rfl rfl rfl rfl rfl).2.1
  , (c2_active_departure_ends_game envA 2 ("r1") none none ("f") stAB roomAB
      ("a@x") ("b@x") ({ ws := some 2, userData := udA }) ({ ws := some 3, userData := udB }) 3
      (by decide) (by decide) (by decide) (by decide) (by decide) (by decide) (by decide)
      rfl rfl rfl rfl rfl).2.2.2.2.1
  , (c2_active_departure_ends_game envA 2 ("r1") none none ("f") stAB roomAB
      ("a@x") ("b@x") ({ ws := some 2, userData := udA }) ({ ws := some 3, userData := udB }) 3
      (by decide) (by decide) (by decide) (by decide) (by decide) (by decide) (by decide)
      rfl rfl rfl rfl rfl).2.2.2.2.2.1
  , (c2_active_departure_ends_game envA 2 ("r1") none none ("f") stAB roomAB
      ("a@x") ("b@x") ({ ws := some 2, userData := udA }) ({ ws := some 3, userData := udB }) 3
      (by decide) (by decide) (by decide) (by decide) (by decide) (by decide) (by decide)
      rfl rfl rfl rfl rfl).2.2.2.2.2.2.2.2.2⟩

/-- Claim C5: a fresh join that brings a waiting room from one member to
two sets the started flag to true and broadcasts game_started carrying
the 300 second budget to both members, the existing one and the joiner. -/
theorem c5_second_join_starts_game (env : Env) (ws : ConnId) (rid : String) (ud : UserData)
    (pm : Option String) (fid : String) (st : ServerState) (room : Room)
    (e1 : String) (m1 : Member) (c1 : ConnId)
    (he : ud.email ≠ "")
    (hroom : alGet st.rooms rid = some room)
    (husers : room.users = [(e1, m1)])
    (hne : e1 ≠ ud.email)
    (hm1 : m1.ws = some c1)
    (h1open : env.isOpen c1 = true) (h1fail : env.sendFails c1 = false)
    (hopen : env.isOpen ws = true) (hfail : env.sendFails ws = false) :
    (handleMessage env ws
        (InRaw.parsed (some ("join_room"))
          { roomId := some rid, userData := some ud, message := pm }) fid st
      = handleJoin env ws { roomId := some rid, userData := some ud, message := pm } st)
    ∧ (alGet (stateAfter st
          (handleJoin env ws { roomId := some rid, userData := some ud, message := pm } st)).rooms
        rid).map Room.started = some true
    ∧ OutMsg.gameStarted c1 300
        ∈ outAfter (handleJoin env ws { roomId := some rid, userData := some ud, message := pm } st)
    ∧ OutMsg.gameStarted ws 300
        ∈ outAfter (handleJoin env ws { roomId := some rid, userData := some ud, message := pm } st)
    := by
  have hne2 : ¬e1 = ud.email := hne
  have hmem : alGet room.users ud.email = none := by
    rw [husers]
    simp [alGet, hne2]
  have hfull : ¬2 ≤ room.users.length := by
    rw [husers]
    simp
  have husers2 : (roomWithUser room ws ud).users
      = [(e1, m1), (ud.email, { ws := some ws, userData := ud })] := by
    simp [roomWithUser, husers, alSet, hne2]
  have hlen2 : (roomWithUser room ws ud).users.length = 2 := by
    rw [husers2]
    rfl
  have hJeq : handleJoin env ws { roomId := some rid, userData := some ud, message := pm } st
      = Except.ok (joinTail env rid (roomWithUser room ws ud)
          { st with rooms := alSet st.rooms rid (roomWithUser room ws ud) }
          (safeSend env (some ws) (mkJoinedRoom rid (roomWithUser room ws ud))
            ++ broadcast env (alSet st.rooms rid (roomWithUser room ws ud)) rid
                (fun c => OutMsg.userJoined c ud) (some ud.email))) := by
    unfold handleJoin
    simp only [if_neg he, hroom, hmem, if_neg hfull]
  have hTeq : joinTail env rid (roomWithUser room ws ud)
        { st with rooms := alSet st.rooms rid (roomWithUser room ws ud) }
        (safeSend env (some ws) (mkJoinedRoom rid (roomWithUser room ws ud))
          ++ broadcast env (alSet st.rooms rid (roomWithUser room ws ud)) rid
              (fun c => OutMsg.userJoined c ud) (some ud.email))
      = ({ st with rooms := alSet (alSet st.rooms rid (roomWithUser room ws ud)) rid { roomWithUser room ws ud with started := true } },
        (safeSend env (some ws) (mkJoinedRoom rid (roomWithUser room ws ud))
          ++ broadcast env (alSet st.rooms rid (roomWithUser room ws ud)) rid
              (fun c => OutMsg.userJoined c ud) (some ud.email))
        ++ roomsListToClients env (alSet st.rooms rid (roomWithUser room ws ud))
        ++ broadcast env
            (alSet (alSet st.rooms rid (roomWithUser room ws ud)) rid
              { roomWithUser room ws ud with started := true }) rid
            (fun c => OutMsg.gameStarted c 300) none) := by
    unfold joinTail
    rw [if_pos hlen2]
  have hm1in : ((e1, m1) : String × Member)
      ∈ ({ roomWithUser room ws ud with started := true } : Room).users := by
    show ((e1, m1) : String × Member) ∈ (roomWithUser room ws ud).users
    rw [husers2]
    exact List.mem_cons_self _ _
  have hwsin : ((ud.email, { ws := some ws, userData := ud }) : String × Member)
      ∈ ({ roomWithUser room ws ud with started := true } : Room).users := by
    show ((ud.email, { ws := some ws, userData := ud }) : String × Member)
        ∈ (roomWithUser room ws ud).users
    rw [husers2]
    exact List.mem_cons_of_mem _ (List.mem_cons_self _ _)
  have hb1 : OutMsg.gameStarted c1 300
      ∈ broadcast env
          (alSet (alSet st.rooms rid (roomWithUser room ws ud)) rid
            { roomWithUser room ws ud with started := true }) rid
          (fun c => OutMsg.gameStarted c 300) none :=
    mem_broadcast env _ rid (fun c => OutMsg.gameStarted c 300) none
      ({ roomWithUser room ws ud with started := true }) ((e1, m1)) c1
      (alGet_alSet_self _ _ _) hm1in rfl hm1 h1open h1fail
  have hb2 : OutMsg.gameStarted ws 300
      ∈ broadcast env
          (alSet (alSet st.rooms rid (roomWithUser room ws ud)) rid
            { roomWithUser room ws ud with started := true }) rid
          (fun c => OutMsg.gameStarted c 300) none :=
    mem_broadcast env _ rid (fun c => OutMsg.gameStarted c 300) none
      ({ roomWithUser room ws ud with started := true })
      ((ud.email, { ws := some ws, userData := ud })) ws
      (alGet_alSet_self _ _ _) hwsin rfl rfl hopen hfail
  refine ⟨rfl, ?_, ?_, ?_⟩
  · rw [hJeq]
    show (alGet (joinTail env rid (roomWithUser room ws ud) _ _).1.rooms rid).map Room.started
        = some true
    rw [hTeq]
    simp only [alGet_alSet_self]
    rfl
  · rw [hJeq]
    show OutMsg.gameStarted c1 300 ∈ (joinTail env rid (roomWithUser room ws ud) _ _).2
    rw [hTeq]
    exact List.mem_append_right _ hb1
  · rw [hJeq]
    show OutMsg.gameStarted ws 300 ∈ (joinTail env rid (roomWithUser room ws ud) _ _).2
    rw [hTeq]
    exact List.mem_append_right _ hb2

/-- Witness for c5_second_join_starts_game: b@x joins the waiting room r2
from connection 3; the room starts and both a@x on connection 2 and b@x
on connection 3 receive game_started with the 300 second budget. -/
theorem c5_second_join_witness :
    (alGet (stateAfter stA1
        (handleJoin envA 3 { roomId := some ("r2"), userData := some udB, message := none } stA1)).rooms
      ("r2")).map Room.started = some true
    ∧ OutMsg.gameStarted 2 300
        ∈ outAfter (handleJoin envA 3 { roomId := some ("r2"), userData := some udB, message := none } stA1)
    ∧ OutMsg.gameStarted 3 300
        ∈ outAfter (handleJoin envA 3 { roomId := some ("r2"), userData := some udB, message := none } stA1) :=
  (c5_second_join_starts_game envA 3 ("r2") udB none ("f") stA1 roomA1
    ("a@x") ({ ws := some 2, userData := udA }) 2
    (by decide) (by decide) (by decide) (by decide) rfl rfl rfl rfl rfl).2

/-- Claim C4, counterexample to the unamended statement: when a@x rejoins
the full started room r1 on the new connection 5, the other member b@x on
connection 3 does receive a message as a consequence of the rejoin: the
handler falls through to the game-start block, which re-broadcasts
game_started to all members of the full room. -/
theorem c4_counterexample :
    OutMsg.gameStarted 3 300 ∈
      outAfter (handleMessage envA 5
        (InRaw.parsed (some ("join_room"))
          { roomId := some ("r1"), userData := some udA, message := none }) ("f") stAB) := by
  decide

/-- Claim C4 as amended: a rejoin replaces only the rejoining member
entry (new connection handle, new profile), keeps the membership order
and every other member entry unchanged, answers the joined_room snapshot
to the rejoining connection only, and broadcasts no user_joined event.
The started flag keeps its value except that a rejoin into a room of 2
members re-sets it to true, in which case game_started is re-broadcast
to the room (and every open listed client receives a rooms_list update),
so the rejoin is not silent to the peer. -/
theorem c4_rejoin_effects (env : Env) (ws : ConnId) (rid : String) (ud : UserData)
    (pm : Option String) (fid : String) (st : ServerState) (room : Room) (m0 : Member)
    (he : ud.email ≠ "")
    (hroom : alGet st.rooms rid = some room)
    (hmem : alGet room.users ud.email = some m0) :
    (handleMessage env ws
        (InRaw.parsed (some ("join_room"))
          { roomId := some rid, userData := some ud, message := pm }) fid st
      = handleJoin env ws { roomId := some rid, userData := some ud, message := pm } st)
    ∧ (alGet (stateAfter st
          (handleJoin env ws { roomId := some rid, userData := some ud, message := pm } st)).rooms
        rid).map Room.users
        = some (alSet room.users ud.email { ws := some ws, userData := ud })
    ∧ (alSet room.users ud.email { ws := some ws, userData := ud }).map Prod.fst
        = room.users.map Prod.fst
    ∧ (∀ e, e ≠ ud.email →
        alGet (alSet room.users ud.email { ws := some ws, userData := ud }) e
          = alGet room.users e)
    ∧ (alGet (stateAfter st
          (handleJoin env ws { roomId := some rid, userData := some ud, message := pm } st)).rooms
        rid).map Room.started
        = some (if room.users.length = 2 then true else room.started)
    ∧ (outAfter (handleJoin env ws { roomId := some rid, userData := some ud, message := pm } st)).all
        (fun m => !(isUserJoined m)) = true
    ∧ (outAfter (handleJoin env ws { roomId := some rid, userData := some ud, message := pm } st)).all
        (fun m => !(isJoinedRoom m) || (msgTo m == ws)) = true
    := by
  have hsome : (alGet room.users ud.email).isSome = true := by rw [hmem]; rfl
  have hlen : (alSet room.users ud.email { ws := some ws, userData := ud }).length
      = room.users.length := length_alSet_present _ _ _ hsome
  have hJeq : handleJoin env ws { roomId := some rid, userData := some ud, message := pm } st
      = Except.ok (joinTail env rid (roomWithUser room ws ud)
          { st with rooms := alSet st.rooms rid (roomWithUser room ws ud) }
          (safeSend env (some ws) (mkJoinedRoom rid (roomWithUser room ws ud)))) := by
    unfold handleJoin
    simp only [if_neg he, hroom, hmem]
  have hP1send : (safeSend env (some ws) (mkJoinedRoom rid (roomWithUser room ws ud))).all
      (fun m => !(isUserJoined m)) = true :=
    safeSend_all env (some ws) _ _ (fun c => rfl)
  have hP2send : (safeSend env (some ws) (mkJoinedRoom rid (roomWithUser room ws ud))).all
      (fun m => !(isJoinedRoom m) || (msgTo m == ws)) = true :=
    safeSend_all_self env ws _ _ (by simp [mkJoinedRoom, isJoinedRoom, msgTo])
  rw [hJeq]
  refine ⟨hJeq, ?_, keys_alSet_present _ _ _ hsome,
    fun e hne => alGet_alSet_ne _ _ _ _ hne, ?_, ?_, ?_⟩ <;>
    unfold joinTail <;>
    by_cases h2 : (roomWithUser room ws ud).users.length = 2
  · rw [if_pos h2]
    simp only [stateAfter, alGet_alSet_self]
    rfl
  · rw [if_neg h2]
    simp only [stateAfter, alGet_alSet_self]
    rfl
  · rw [if_pos h2]
    simp only [stateAfter, alGet_alSet_self]
    have h2' : room.users.length = 2 := by
      rw [← hlen]
      exact h2
    rw [if_pos h2']
    rfl
  · rw [if_neg h2]
    simp only [stateAfter, alGet_alSet_self]
    have h2' : ¬room.users.length = 2 := by
      rw [← hlen]
      exact h2
    rw [if_neg h2']
    rfl
  · rw [if_pos h2]
    simp only [outAfter, List.all_append]
    rw [hP1send, roomsListToClients_all env _ _ (fun c l => rfl),
      broadcast_all env _ _ _ _ _ (fun c => rfl)]
    rfl
  · rw [if_neg h2]
    simp only [outAfter, List.all_append]
    rw [hP1send, roomsListToClients_all env _ _ (fun c l => rfl)]
    rfl
  · rw [if_pos h2]
    simp only [outAfter, List.all_append]
    rw [hP2send, roomsListToClients_all env _ _ (fun c l => rfl),
      broadcast_all env _ _ _ _ _ (fun c => rfl)]
    rfl
  · rw [if_neg h2]
    simp only [outAfter, List.all_append]
    rw [hP2send, roomsListToClients_all env _ _ (fun c l => rfl)]
    rfl

/-- Witness for c4_rejoin_effects: a@x rejoins r1 from the new
connection 5; the peer entry for b@x is untouched, no user_joined is
broadcast, and the joined_room snapshot goes only to connection 5. -/
theorem c4_rejoin_effects_witness :
    (alGet (alSet roomAB.users ("a@x") { ws := some 5, userData := udA }) ("b@x")
      = alGet roomAB.users ("b@x"))
    ∧ (outAfter (handleJoin envA 5
        { roomId := some ("r1"), userData := some udA, message := none } stAB)).all
        (fun m => !(isUserJoined m)) = true
    ∧ (outAfter (handleJoin envA 5
        { roomId := some ("r1"), userData := some udA, message := none } stAB)).all
        (fun m => !(isJoinedRoom m) || (msgTo m == 5)) = true :=
  ⟨(c4_rejoin_effects envA 5 ("r1") udA none ("f") stAB roomAB
      ({ ws := some 2, userData := udA }) (by decide) (by decide) (by decide)).2.2.2.1
      ("b@x") (by decide)
  , (c4_rejoin_effects envA 5 ("r1") udA none ("f") stAB roomAB
      ({ ws := some 2, userData := udA }) (by decide) (by decide) (by decide)).2.2.2.2.2.1
  , (c4_rejoin_effects envA 5 ("r1") udA none ("f") stAB roomAB
      ({ ws := some 2, userData := udA }) (by decide) (by decide) (by decide)).2.2.2.2.2.2⟩

end CodeBattle
